import Mathlib

/-!
Shallow embedding of `django_mysql/cache.py` (class `MySQLCache`), a cache
backed by a MySQL table with columns `cache_key`, `value`, `expires`.

Modelling choices:
* The backing table is an association list `Store := List (String × Blob × ℤ)`
  keyed by `cache_key`; the table's unique-key constraint is the predicate
  `Wf` (no duplicate keys).
* Serialized values (`pickle.dumps` output) are opaque blobs `Blob := List Nat`.
  The codec (`_encode` / `_decode`, backed by the external `pickle` library) is
  a pair of parameters `encode : Value → Blob`, `decode : Blob → Value`.
* Wall-clock readings: `time.time()` is a nonnegative rational number of
  seconds; `int(time.time() * 1000)` readings appear as integer `now : ℤ`
  arguments where the source applies `int(...)` (get, get_many, has_key), and
  as rational arguments where it does not (`_base_set`, whose line
  `now = (time.time() * 1000)` keeps the float).
* Python `int()` on a float truncates toward zero; `pyInt` models it on ℚ.
* SQL statements are modelled by their MySQL semantics on the store
  (`sqlGet`, `sqlSet`, `sqlAdd`, ...). In particular, in `_add_query`,
  `INSERT ... ON DUPLICATE KEY UPDATE value=IF(expires > now, value,
  VALUES(value)), expires=IF(expires > now, IFNULL(LEAST(LAST_INSERT_ID(444),
  NULL), expires), VALUES(expires))` leaves a live row (`expires > now`)
  untouched while setting the session insert id to 444 (`LEAST(x, NULL)` is
  `NULL`, so `IFNULL` keeps `expires`), and otherwise replaces value and
  expiry, leaving the insert id at 0; `_base_set` then returns
  `insert_id != 444`.
* Fallible operations return `Except String α` (`ValueError` from
  `validate_key` becomes `Except.error`); write operations return the
  (possibly unchanged) successor store alongside the result.
-/

/-- `BIGINT_UNSIGNED_MAX = 18446744073709551615` (module-level constant). -/
def BIGINT_UNSIGNED_MAX : ℕ := 18446744073709551615

namespace MySQLCache

/-- `FOREVER_TIMEOUT = BIGINT_UNSIGNED_MAX >> 1` (class attribute). -/
def FOREVER_TIMEOUT : ℕ := BIGINT_UNSIGNED_MAX >>> 1

/-- An opaque serialized value blob (the bytes produced by `_encode`). -/
abbrev Blob := List Nat

/-- The backing table: rows `(cache_key, value, expires)`. -/
abbrev Store := List (String × Blob × ℤ)

/-- The table's unique-key constraint on `cache_key`. -/
abbrev Wf (store : Store) : Prop := (store.map Prod.fst).Nodup

/-- Python `int()` applied to a real (rational) number: truncation toward
zero. -/
def pyInt (q : ℚ) : ℤ := if q < 0 then ⌈q⌉ else ⌊q⌋

/-- Error message raised by `validate_key` (`ValueError`, with the source's
spelling) when the key exceeds 250 characters. -/
def invalidKeyMessage (key : String) : String :=
  "Cache key is longer than the maxmimum 250 characters: " ++ key

/-- `validate_key`: raises `ValueError` when `len(key) > 250`. (The
subsequent `super().validate_key(key)` call only emits warnings, never an
exception, so it is a no-op in this embedding.) -/
def validate_key (key : String) : Except String Unit :=
  if 250 < key.length then Except.error (invalidKeyMessage key)
  else Except.ok ()

/-- The relative timeout argument of the public write operations, minus the
`None` case (which is handled by `get_backend_timeout` directly):
`DEFAULT_TIMEOUT` is Django's "use the backend default" sentinel, `secs s` an
explicit number of seconds. -/
inductive TimeoutV
  | default
  | secs (s : ℚ)

/-- Modelled from the spec: the external default-timeout convention the core
reuses (spec section 4.3 delegates zero/negative and default handling to "the
external default-timeout convention", Django's `BaseCache.get_backend_timeout`,
which is not part of this repository). It resolves `DEFAULT_TIMEOUT` to the
backend's configured `default_timeout`, rewrites an explicit timeout of `0` to
`-1` ("already expired"), and returns `time.time() + timeout` seconds. -/
def base_get_backend_timeout (default_timeout : ℚ) (t : TimeoutV) (now_s : ℚ) : ℚ :=
  match t with
  | TimeoutV.default => now_s + default_timeout
  | TimeoutV.secs s => now_s + (if s = 0 then -1 else s)

/-- `get_backend_timeout`: `None` maps to `FOREVER_TIMEOUT`; any other
timeout is resolved by the superclass to absolute seconds and converted with
`int(timeout * 1000)`. -/
def get_backend_timeout (default_timeout : ℚ) (t : Option TimeoutV) (now_s : ℚ) : ℤ :=
  match t with
  | none => (FOREVER_TIMEOUT : ℤ)
  | some tv => pyInt (base_get_backend_timeout default_timeout tv now_s * 1000)

/-- Semantics of `_get_query` (`SELECT value, expires WHERE cache_key = %s`)
followed by the Python post-processing in `get`: no row, or a row with
`expires < now`, yields the default; otherwise the blob is decoded. -/
def sqlGet {Value : Type} (decode : Blob → Value) (store : Store) (key : String)
    (now : ℤ) (default : Value) : Value :=
  match store.lookup key with
  | none => default
  | some (b, e) => if e < now then default else decode b

/-- Semantics of `_get_many_query` (`SELECT cache_key, value, expires WHERE
cache_key IN %s`) followed by the result loop in `get_many`: each returned row
with `expires < now` is skipped, the rest populate the result mapping. -/
def sqlGetMany {Value : Type} (decode : Blob → Value) (store : Store)
    (keys : List String) (now : ℤ) : List (String × Value) :=
  match store with
  | [] => []
  | (k, b, e) :: rest =>
    if keys.contains k then
      if e < now then sqlGetMany decode rest keys now
      else (k, decode b) :: sqlGetMany decode rest keys now
    else sqlGetMany decode rest keys now

/-- Semantics of `_set_query` (`INSERT ... ON DUPLICATE KEY UPDATE
value=VALUES(value), expires=VALUES(expires)`): unconditional upsert. -/
def sqlSet (store : Store) (key : String) (blob : Blob) (exp : ℤ) : Store :=
  match store with
  | [] => [(key, blob, exp)]
  | (k, b, e) :: rest =>
    if k = key then (key, blob, exp) :: rest
    else (k, b, e) :: sqlSet rest key blob exp

/-- Semantics of `_add_query` plus the `insert_id != 444` read-back in
`_base_set`: fresh insert or replacement of a non-live row returns `true`;
a live row (`expires > now`) is left untouched and returns `false`. -/
def sqlAdd (store : Store) (key : String) (blob : Blob) (exp : ℤ) (now : ℚ) :
    Store × Bool :=
  match store.lookup key with
  | none => (sqlSet store key blob exp, true)
  | some (_, e) =>
    if now < (e : ℚ) then (store, false) else (sqlSet store key blob exp, true)

/-- Semantics of the query in `has_key` (`SELECT cache_key WHERE cache_key =
%s and expires > %s`, then `fetchone() is not None`). -/
def sqlHasKey (store : Store) (key : String) (now : ℤ) : Bool :=
  match store.lookup key with
  | none => false
  | some (_, e) => decide (now < e)

/-- Semantics of the `DELETE ... WHERE cache_key = %s` statement. -/
def sqlDelete (store : Store) (key : String) : Store :=
  store.filter (fun r => r.1 != key)

/-- Semantics of the `DELETE ... WHERE cache_key IN %s` statement. -/
def sqlDeleteMany (store : Store) (keys : List String) : Store :=
  store.filter (fun r => !(keys.contains r.1))

/-- The two modes of `_base_set` (the source dispatches on the strings
`'set'` and `'add'`; no other mode string is ever passed). -/
inductive Mode
  | set
  | add

/-- `_base_set(mode, key, value, timeout)` after the timeout has been
resolved to `exp` and with the float clock reading `now = time.time() * 1000`
passed in: in `'set'` mode it upserts and returns `True`; in `'add'` mode it
runs `_add_query` and returns `insert_id != 444`. -/
def base_set {Value : Type} (encode : Value → Blob) (mode : Mode) (store : Store)
    (key : String) (v : Value) (exp : ℤ) (now : ℚ) : Store × Bool :=
  match mode with
  | Mode.set => (sqlSet store key (encode v) exp, true)
  | Mode.add => sqlAdd store key (encode v) exp now

/-- Public `set`: validate the key, then `_base_set('set', ...)` (the boolean
result is discarded by the source; the Python method returns `None`). The
clock is read twice in the source (inside `get_backend_timeout` and inside
`_base_set`); the two readings are `now_s` (seconds) and `now2` (ms). -/
def set {Value : Type} (encode : Value → Blob) (default_timeout : ℚ)
    (store : Store) (key : String) (v : Value) (t : Option TimeoutV)
    (now_s now2 : ℚ) : Store × Except String Unit :=
  match validate_key key with
  | Except.error msg => (store, Except.error msg)
  | Except.ok _ =>
    ((base_set encode Mode.set store key v
        (get_backend_timeout default_timeout t now_s) now2).1,
      Except.ok ())

/-- Public `add`: validate the key, then `_base_set('add', ...)`, returning
its boolean. -/
def add {Value : Type} (encode : Value → Blob) (default_timeout : ℚ)
    (store : Store) (key : String) (v : Value) (t : Option TimeoutV)
    (now_s now2 : ℚ) : Store × Except String Bool :=
  match validate_key key with
  | Except.error msg => (store, Except.error msg)
  | Except.ok _ =>
    let r := base_set encode Mode.add store key v
        (get_backend_timeout default_timeout t now_s) now2
    (r.1, Except.ok r.2)

/-- Public `get`: validate the key, then run `_get_query` and post-process. -/
def get {Value : Type} (decode : Blob → Value) (store : Store) (key : String)
    (now : ℤ) (default : Value) : Except String Value :=
  match validate_key key with
  | Except.error msg => Except.error msg
  | Except.ok _ => Except.ok (sqlGet decode store key now default)

/-- Public `get_many`: validate every key, then run `_get_many_query` and
filter expired rows. -/
def get_many {Value : Type} (decode : Blob → Value) (store : Store)
    (keys : List String) (now : ℤ) : Except String (List (String × Value)) :=
  match keys.forM validate_key with
  | Except.error msg => Except.error msg
  | Except.ok _ => Except.ok (sqlGetMany decode store keys now)

/-- Public `has_key`. -/
def has_key (store : Store) (key : String) (now : ℤ) : Except String Bool :=
  match validate_key key with
  | Except.error msg => Except.error msg
  | Except.ok _ => Except.ok (sqlHasKey store key now)

/-- Public `delete`. -/
def delete (store : Store) (key : String) : Store × Except String Unit :=
  match validate_key key with
  | Except.error msg => (store, Except.error msg)
  | Except.ok _ => (sqlDelete store key, Except.ok ())

/-- Public `delete_many`. -/
def delete_many (store : Store) (keys : List String) :
    Store × Except String Unit :=
  match keys.forM validate_key with
  | Except.error msg => (store, Except.error msg)
  | Except.ok _ => (sqlDeleteMany store keys, Except.ok ())

/-- One `%s` placeholder tuple of the bulk-upsert VALUES clause. -/
def vtuple : String := "(%s, %s, %s)"

/-- `','.join('(%s, %s, %s)' for key in data)`: the VALUES clause for `n`
rows. -/
def values_clause (n : ℕ) : String :=
  String.intercalate "," (List.replicate n vtuple)

/-- The part of `_set_many_query` (after `collapse_spaces` whitespace
normalization) before the `VALUES_CLAUSE` placeholder. -/
def set_many_query_head : String :=
  "INSERT INTO \x7btable_name\x7d (cache_key, value, expires) VALUES "

/-- The part of `_set_many_query` after the `VALUES_CLAUSE` placeholder. -/
def set_many_query_tail : String :=
  " ON DUPLICATE KEY UPDATE value=VALUES(value), expires=VALUES(expires)"

/-- The query string `set_many` executes for `n` rows: the result of
`_set_many_query.replace('\x7b\x7bVALUES_CLAUSE\x7d\x7d', values_clause)` —
the template contains exactly one occurrence of the placeholder, so the
replacement splices the clause between head and tail. -/
def set_many_query (n : ℕ) : String :=
  set_many_query_head ++ values_clause n ++ set_many_query_tail

/-- `_set_query`: the single-row upsert query, the template with one value
tuple spliced in. -/
def set_query : String := set_many_query 1

/-- A statement parameter as passed to `cursor.execute`. -/
inductive Param
  | key (k : String)
  | blob (b : Blob)
  | expiry (e : ℤ)
deriving DecidableEq

/-- A parameterized statement handed to `cursor.execute`. -/
structure Statement where
  query : String
  params : List Param
deriving DecidableEq

/-- Public `set_many`: resolve the timeout, validate each key while building
the flat parameter list, build the query with one value tuple per data row,
and execute it. `cursor.execute` is called unconditionally — there is no
emptiness check — so the result is `Except.ok` of the issued statement
whenever every key validates (`Except.error` models the `ValueError` raised
before any statement is issued). -/
def set_many {Value : Type} (encode : Value → Blob) (default_timeout : ℚ)
    (data : List (String × Value)) (t : Option TimeoutV) (now_s : ℚ) :
    Except String Statement :=
  let exp := get_backend_timeout default_timeout t now_s
  match data.forM (fun kv => validate_key kv.1) with
  | Except.error msg => Except.error msg
  | Except.ok _ =>
    Except.ok
      { query := set_many_query data.length,
        params := data.flatMap
          (fun kv => [Param.key kv.1, Param.blob (encode kv.2), Param.expiry exp]) }

/-- A one-character key used by concrete witnesses. -/
def kW : String := "k"

/-- A second key used by concrete witnesses. -/
def kW2 : String := "m"

/-- A third key used by concrete witnesses. -/
def kW3 : String := "z"

/-- A concrete codec on ℕ used by witnesses and counterexamples: the blob is
the singleton list holding the number. -/
def encodeN (n : ℕ) : Blob := [n]

/-- The decoder inverting `encodeN`. -/
def decodeN (b : Blob) : ℕ := b.headD 0

/-! Helper lemmas about the embedded operations. -/

/-- Upserting writes the key. -/
theorem lookup_sqlSet_self (store : Store) (key : String) (blob : Blob) (exp : ℤ) :
    (sqlSet store key blob exp).lookup key = some (blob, exp) := by
  induction store with
  | nil => simp [sqlSet]
  | cons r rest ih =>
    obtain ⟨k, b, e⟩ := r
    by_cases h : k = key
    · simp [sqlSet, h]
    · have hb : (key == k) = false := beq_eq_false_iff_ne.mpr (fun hh => h hh.symm)
      simp [sqlSet, h, List.lookup_cons, hb, ih]

/-- Upserting leaves other keys unchanged. -/
theorem lookup_sqlSet_ne (store : Store) (key k2 : String) (blob : Blob)
    (exp : ℤ) (h : k2 ≠ key) :
    (sqlSet store key blob exp).lookup k2 = store.lookup k2 := by
  have hb : (k2 == key) = false := beq_eq_false_iff_ne.mpr h
  induction store with
  | nil => simp [sqlSet, List.lookup_cons, hb]
  | cons r rest ih =>
    obtain ⟨k, b, e⟩ := r
    by_cases hk : k = key
    · subst hk
      simp [sqlSet, List.lookup_cons, hb]
    · simp only [sqlSet, if_neg hk, List.lookup_cons, ih]

/-- A key with no row in the store has no entry in the `get_many` result. -/
theorem lookup_sqlGetMany_eq_none {Value : Type} (decode : Blob → Value)
    (store : Store) (keys : List String) (now : ℤ) (k : String)
    (h : store.lookup k = none) :
    (sqlGetMany decode store keys now).lookup k = none := by
  induction store with
  | nil => simp [sqlGetMany]
  | cons r rest ih =>
    obtain ⟨k1, b, e⟩ := r
    rw [List.lookup_cons] at h
    by_cases hk : k = k1
    · rw [hk] at h
      simp at h
    · have hb : (k == k1) = false := beq_eq_false_iff_ne.mpr hk
      rw [hb] at h
      have h2 := ih h
      unfold sqlGetMany
      by_cases hc : keys.contains k1
      · by_cases he : e < now
        · rw [if_pos hc, if_pos he]
          exact h2
        · rw [if_pos hc, if_neg he, List.lookup_cons, hb]
          exact h2
      · rw [if_neg hc]
        exact h2

/-- Under the unique-key constraint, a row that exists but is expired
(`expires < now`) produces no entry in the `get_many` result. -/
theorem lookup_sqlGetMany_expired {Value : Type} (decode : Blob → Value)
    (store : Store) (keys : List String) (now : ℤ) (k : String) (b : Blob)
    (e : ℤ) :
    Wf store → store.lookup k = some (b, e) → e < now →
    (sqlGetMany decode store keys now).lookup k = none := by
  induction store with
  | nil =>
    intro _ h _
    simp at h
  | cons r rest ih =>
    intro hwf h he
    obtain ⟨k1, b1, e1⟩ := r
    have hwf' : (k1 :: rest.map Prod.fst).Nodup := hwf
    obtain ⟨h1, h2⟩ := List.nodup_cons.mp hwf'
    rw [List.lookup_cons] at h
    by_cases hk : k = k1
    · subst hk
      simp only [beq_self_eq_true, Option.some.injEq, Prod.mk.injEq] at h
      obtain ⟨rfl, rfl⟩ := h
      have hnone : rest.lookup k = none := by
        rw [List.lookup_eq_none_iff]
        intro p hp
        have hpm : p.1 ∈ rest.map Prod.fst := List.mem_map_of_mem Prod.fst hp
        simp only [bne_iff_ne, ne_eq]
        intro hkp
        refine h1 ?_
        rw [hkp]
        exact hpm
      have hrec := lookup_sqlGetMany_eq_none decode rest keys now k hnone
      unfold sqlGetMany
      by_cases hc : keys.contains k
      · rw [if_pos hc, if_pos he]
        exact hrec
      · rw [if_neg hc]
        exact hrec
    · have hb : (k == k1) = false := beq_eq_false_iff_ne.mpr hk
      rw [hb] at h
      have hrec := ih h2 h he
      unfold sqlGetMany
      by_cases hc : keys.contains k1
      · by_cases he1 : e1 < now
        · rw [if_pos hc, if_pos he1]
          exact hrec
        · rw [if_pos hc, if_neg he1, List.lookup_cons, hb]
          exact hrec
      · rw [if_neg hc]
        exact hrec

/-- Under the unique-key constraint, a requested row that is not expired
(`¬ expires < now`) appears in the `get_many` result with its decoded
blob. -/
theorem lookup_sqlGetMany_live {Value : Type} (decode : Blob → Value)
    (store : Store) (keys : List String) (now : ℤ) (k : String) (b : Blob)
    (e : ℤ) :
    Wf store → store.lookup k = some (b, e) → ¬ e < now → k ∈ keys →
    (sqlGetMany decode store keys now).lookup k = some (decode b) := by
  induction store with
  | nil =>
    intro _ h _ _
    simp at h
  | cons r rest ih =>
    intro hwf h he hkeys
    obtain ⟨k1, b1, e1⟩ := r
    have hwf' : (k1 :: rest.map Prod.fst).Nodup := hwf
    obtain ⟨h1, h2⟩ := List.nodup_cons.mp hwf'
    rw [List.lookup_cons] at h
    by_cases hk : k = k1
    · subst hk
      simp only [beq_self_eq_true, Option.some.injEq, Prod.mk.injEq] at h
      obtain ⟨rfl, rfl⟩ := h
      have hc : keys.contains k = true := by
        simpa using hkeys
      have hunf : sqlGetMany decode ((k, b1, e1) :: rest) keys now =
          if keys.contains k then
            if e1 < now then sqlGetMany decode rest keys now
            else (k, decode b1) :: sqlGetMany decode rest keys now
          else sqlGetMany decode rest keys now := rfl
      rw [hunf, if_pos hc, if_neg he]
      exact List.lookup_cons_self
    · have hb : (k == k1) = false := beq_eq_false_iff_ne.mpr hk
      rw [hb] at h
      have hrec := ih h2 h he hkeys
      have hunf : sqlGetMany decode ((k1, b1, e1) :: rest) keys now =
          if keys.contains k1 then
            if e1 < now then sqlGetMany decode rest keys now
            else (k1, decode b1) :: sqlGetMany decode rest keys now
          else sqlGetMany decode rest keys now := rfl
      rw [hunf]
      by_cases hc : keys.contains k1
      · by_cases he1 : e1 < now
        · rw [if_pos hc, if_pos he1]
          exact hrec
        · rw [if_pos hc, if_neg he1, List.lookup_cons, hb]
          exact hrec
      · rw [if_neg hc]
        exact hrec

/-! Claim theorems. -/

/-- C1: `add(key, value, timeout)` returns true iff, at the moment of the
statement, the key was previously absent or occupied by a row whose expiry
had already passed (`expires ≤ now`), in which case the row is freshly
inserted or replaced (the store becomes the upsert `sqlSet` of the new row);
it returns false iff a live row (`expires > now`) already occupied the key,
in which case the store is left untouched. -/
theorem add_true_iff_absent_or_expired (store : Store) (key : String)
    (blob : Blob) (exp : ℤ) (now : ℚ) :
    ((sqlAdd store key blob exp now).2 = true ↔
      store.lookup key = none ∨
        ∃ b e, store.lookup key = some (b, e) ∧ (e : ℚ) ≤ now) ∧
    ((sqlAdd store key blob exp now).2 = false ↔
      ∃ b e, store.lookup key = some (b, e) ∧ now < (e : ℚ)) ∧
    ((sqlAdd store key blob exp now).2 = false →
      (sqlAdd store key blob exp now).1 = store) ∧
    ((sqlAdd store key blob exp now).2 = true →
      (sqlAdd store key blob exp now).1 = sqlSet store key blob exp) := by
  unfold sqlAdd
  cases h : store.lookup key with
  | none => simp
  | some be =>
    obtain ⟨b, e⟩ := be
    by_cases hlt : now < (e : ℚ)
    · have hne : ¬ ((e : ℚ) ≤ now) := not_le.mpr hlt
      simp [hlt, hne]
      exact ⟨b, e, ⟨rfl, rfl⟩, hlt⟩
    · have hle : (e : ℚ) ≤ now := not_lt.mp hlt
      simp [hlt, hle]
      exact ⟨b, e, ⟨rfl, rfl⟩, hle⟩

/-- C1 witness: on a store holding a row for the key that expired at 50,
`add` at `now = 60` succeeds. -/
theorem add_true_iff_absent_or_expired_witness :
    ((sqlAdd [(kW, [5], 50)] kW [7] 999 60).2 = true ↔
      ([(kW, [5], 50)] : Store).lookup kW = none ∨
        ∃ b e, ([(kW, [5], 50)] : Store).lookup kW = some (b, e) ∧
          (e : ℚ) ≤ 60) ∧
    ((sqlAdd [(kW, [5], 50)] kW [7] 999 60).2 = false ↔
      ∃ b e, ([(kW, [5], 50)] : Store).lookup kW = some (b, e) ∧
        (60 : ℚ) < (e : ℚ)) ∧
    ((sqlAdd [(kW, [5], 50)] kW [7] 999 60).2 = false →
      (sqlAdd [(kW, [5], 50)] kW [7] 999 60).1 = [(kW, [5], 50)]) ∧
    ((sqlAdd [(kW, [5], 50)] kW [7] 999 60).2 = true →
      (sqlAdd [(kW, [5], 50)] kW [7] 999 60).1 = sqlSet [(kW, [5], 50)] kW [7] 999) :=
  add_true_iff_absent_or_expired [(kW, [5], 50)] kW [7] 999 60

/-- C2 counterexample: an entry whose `expires_at` equals `now` is not hidden
from `get` or from `get_many`: on the store holding the row `(k, [5], 100)`,
`get` at `now = 100` returns the stored value 5 rather than the default 0,
and `get_many([k])` at `now = 100` still maps `k` to 5 instead of omitting
it, even though `expires_at ≤ now` — the source's miss condition in both
reads is the strict `expires < now`. -/
theorem get_visible_at_expiry_instant :
    (100 : ℤ) ≤ 100 ∧
    sqlGet decodeN [(kW, [5], 100)] kW 100 0 = 5 ∧
    sqlGet decodeN [(kW, [5], 100)] kW 100 0 ≠ 0 ∧
    (sqlGetMany decodeN [(kW, [5], 100)] [kW] 100).lookup kW = some 5 := by
  decide

/-- C2 (amended): lazy expiration as implemented: an entry with
`expires_at < now` (strictly) is logically absent from `get` (returns the
default) and from `get_many` (key omitted from the mapping), while `has_key`
hides the entry already when `expires_at ≤ now` (its liveness check is the
strict `expires > now`); at `expires_at = now` exactly, `get` still returns
the entry and `get_many` still includes it in the mapping (the last two
conjuncts cover every `now ≤ expires_at`, hence the boundary). Missing rows
are absent from every read. Reads do not modify the store (they return no
successor store). -/
theorem lazy_expiration_visibility {Value : Type} (decode : Blob → Value)
    (store : Store) (keys : List String) (key : String) (now : ℤ)
    (default : Value) :
    (∀ b e, store.lookup key = some (b, e) → e < now →
      sqlGet decode store key now default = default) ∧
    (store.lookup key = none → sqlGet decode store key now default = default) ∧
    (Wf store → ∀ b e, store.lookup key = some (b, e) → e < now →
      (sqlGetMany decode store keys now).lookup key = none) ∧
    (∀ b e, store.lookup key = some (b, e) → e ≤ now →
      sqlHasKey store key now = false) ∧
    (store.lookup key = none → sqlHasKey store key now = false) ∧
    (∀ b e, store.lookup key = some (b, e) → now ≤ e →
      sqlGet decode store key now default = decode b) ∧
    (Wf store → ∀ b e, store.lookup key = some (b, e) → now ≤ e →
      key ∈ keys →
      (sqlGetMany decode store keys now).lookup key = some (decode b)) := by
  refine ⟨?_, ?_, ?_, ?_, ?_, ?_, ?_⟩
  · intro b e h he
    simp [sqlGet, h, he]
  · intro h
    simp [sqlGet, h]
  · intro hwf b e h he
    exact lookup_sqlGetMany_expired decode store keys now key b e hwf h he
  · intro b e h he
    simp [sqlHasKey, h, not_lt.mpr he]
  · intro h
    simp [sqlHasKey, h]
  · intro b e h he
    simp [sqlGet, h, not_lt.mpr he]
  · intro hwf b e h he hkeys
    exact lookup_sqlGetMany_live decode store keys now key b e hwf h
      (not_lt.mpr he) hkeys

/-- C2 witness: on the store holding the row `(k, [5], 100)`, at `now = 101`
the entry is hidden from `get` and `get_many`, at `now = 100` it is already
hidden from `has_key`, and at the boundary `now = 100` `get_many` still maps
the key to its decoded value. -/
theorem lazy_expiration_visibility_witness :
    sqlGet decodeN [(kW, [5], 100)] kW 101 0 = 0 ∧
    (sqlGetMany decodeN [(kW, [5], 100)] [kW] 101).lookup kW = none ∧
    sqlHasKey [(kW, [5], 100)] kW 100 = false ∧
    (sqlGetMany decodeN [(kW, [5], 100)] [kW] 100).lookup kW =
      some (decodeN [5]) :=
  ⟨(lazy_expiration_visibility decodeN [(kW, [5], 100)] [kW] kW 101 0).1
      [5] 100 (by decide) (by decide),
    (lazy_expiration_visibility decodeN [(kW, [5], 100)] [kW] kW 101 0).2.2.1
      (by decide) [5] 100 (by decide) (by decide),
    (lazy_expiration_visibility decodeN [(kW, [5], 100)] [kW] kW 100 0).2.2.2.1
      [5] 100 (by decide) (by decide),
    (lazy_expiration_visibility decodeN [(kW, [5], 100)] [kW] kW 100
        0).2.2.2.2.2.2 (by decide) [5] 100 (by decide) (by decide)
      (by decide)⟩

/-- C6: `get_many` returns a mapping containing exactly the requested keys
that have a stored, non-expired row, each mapped to its decoded value; keys
with no row and keys whose entry is expired are silently omitted (and, the
operation being total, their absence is not an error). -/
theorem get_many_exact {Value : Type} (decode : Blob → Value) (store : Store)
    (keys : List String) (now : ℤ) (k : String) (v : Value) :
    Wf store →
    ((sqlGetMany decode store keys now).lookup k = some v ↔
      k ∈ keys ∧ ∃ b e, store.lookup k = some (b, e) ∧ ¬ e < now ∧
        v = decode b) := by
  induction store with
  | nil =>
    intro _
    simp [sqlGetMany]
  | cons r rest ih =>
    intro hwf
    obtain ⟨k1, b1, e1⟩ := r
    have hwf' : (k1 :: rest.map Prod.fst).Nodup := hwf
    obtain ⟨h1, h2⟩ := List.nodup_cons.mp hwf'
    have ihr := ih h2
    by_cases hk : k = k1
    · subst hk
      have hnone : rest.lookup k = none := by
        rw [List.lookup_eq_none_iff]
        intro p hp
        have hpm : p.1 ∈ rest.map Prod.fst := List.mem_map_of_mem Prod.fst hp
        simp only [bne_iff_ne, ne_eq]
        intro hkp
        refine h1 ?_
        rw [hkp]
        exact hpm
      have hrec := lookup_sqlGetMany_eq_none decode rest keys now k hnone
      unfold sqlGetMany
      by_cases hc : keys.contains k
      · have hmem : k ∈ keys := by
          simpa using hc
        by_cases he : e1 < now
        · rw [if_pos hc, if_pos he, hrec]
          simp only [List.lookup_cons_self, Option.some.injEq, Prod.mk.injEq]
          constructor
          · intro hfalse
            exact absurd hfalse (by simp)
          · rintro ⟨-, b, e, ⟨rfl, rfl⟩, hne, -⟩
            exact absurd he hne
        · rw [if_pos hc, if_neg he, List.lookup_cons_self]
          simp only [Option.some.injEq, List.lookup_cons_self, Prod.mk.injEq]
          constructor
          · intro hv
            exact ⟨hmem, b1, e1, ⟨rfl, rfl⟩, he, hv.symm⟩
          · rintro ⟨-, b, e, ⟨rfl, rfl⟩, -, rfl⟩
            rfl
      · have hmem : k ∉ keys := by
          simpa using hc
        rw [if_neg hc, hrec]
        simp [hmem]
    · have hb : (k == k1) = false := beq_eq_false_iff_ne.mpr hk
      have hunf : sqlGetMany decode ((k1, b1, e1) :: rest) keys now =
          if keys.contains k1 then
            if e1 < now then sqlGetMany decode rest keys now
            else (k1, decode b1) :: sqlGetMany decode rest keys now
          else sqlGetMany decode rest keys now := rfl
      have hstep :
          (sqlGetMany decode ((k1, b1, e1) :: rest) keys now).lookup k =
            (sqlGetMany decode rest keys now).lookup k := by
        rw [hunf]
        by_cases hc : keys.contains k1
        · by_cases he : e1 < now
          · rw [if_pos hc, if_pos he]
          · rw [if_pos hc, if_neg he, List.lookup_cons, hb]
        · rw [if_neg hc]
      rw [hstep, List.lookup_cons, hb, ihr]

/-- C6 witness: requesting a live key, an expired key and a missing key
returns the mapping holding exactly the live key. -/
theorem get_many_exact_witness :
    (sqlGetMany decodeN [(kW, [5], 100), (kW2, [9], 50)] [kW, kW2, kW3]
        60).lookup kW = some 5 ∧
    Wf [(kW, [5], 100), (kW2, [9], 50)] :=
  ⟨(get_many_exact decodeN [(kW, [5], 100), (kW2, [9], 50)] [kW, kW2, kW3]
        60 kW 5 (by decide)).mpr
      ⟨by decide, [5], 100, by decide, by decide, by decide⟩,
    by decide⟩

/-- C3 counterexample: the FOREVER sentinel is not `2^64 / 2 =
9223372036854775808`. -/
theorem forever_sentinel_ne_half_pow64 :
    FOREVER_TIMEOUT ≠ 9223372036854775808 := by decide

/-- C3 (amended): the FOREVER sentinel `FOREVER_TIMEOUT =
BIGINT_UNSIGNED_MAX >> 1` is the floor of half the maximum representable
unsigned 64-bit value: `2^63 - 1 = 9223372036854775807`, one less than
`2^64 / 2`. -/
theorem forever_sentinel_value :
    FOREVER_TIMEOUT = 9223372036854775807 ∧
    FOREVER_TIMEOUT = 2 ^ 63 - 1 ∧
    FOREVER_TIMEOUT = BIGINT_UNSIGNED_MAX / 2 ∧
    FOREVER_TIMEOUT = 2 ^ 64 / 2 - 1 := by
  refine ⟨by decide, by decide, by decide, by decide⟩

/-- `validate_key` accepts keys of at most 250 characters. -/
theorem validate_key_ok (key : String) (hkey : key.length ≤ 250) :
    validate_key key = Except.ok () := by
  unfold validate_key
  rw [if_neg (not_lt.mpr hkey)]

/-- Python `int()` agrees with the floor on nonnegative arguments. -/
theorem pyInt_of_nonneg (q : ℚ) (h : 0 ≤ q) : pyInt q = ⌊q⌋ := by
  simp only [pyInt, if_neg (not_lt.mpr h)]

/-- For a valid key, `set` reduces to the unconditional upsert of the encoded
value under the resolved expiry. -/
theorem set_eq_sqlSet {Value : Type} (encode : Value → Blob)
    (default_timeout : ℚ) (store : Store) (key : String) (v : Value)
    (t : Option TimeoutV) (now_s now2 : ℚ) (hkey : key.length ≤ 250) :
    MySQLCache.set encode default_timeout store key v t now_s now2 =
      (sqlSet store key (encode v)
        (get_backend_timeout default_timeout t now_s), Except.ok ()) := by
  unfold MySQLCache.set
  rw [validate_key_ok key hkey]
  rfl

/-- C4: `set(k, v, None)` (forever timeout) followed immediately by `get(k)`
returns a value equal to `v`: provided the external pickle codec round-trips
on `v` (`_decode(_encode(v)) = v`), the key is valid, and the read clock does
not exceed the FOREVER sentinel, the write succeeds and the read returns
`Except.ok v`. -/
theorem set_forever_then_get {Value : Type} (encode : Value → Blob)
    (decode : Blob → Value) (default_timeout : ℚ) (store : Store)
    (key : String) (v : Value) (now_s now2 : ℚ) (now_ms : ℤ) (default : Value)
    (hcodec : decode (encode v) = v) (hkey : key.length ≤ 250)
    (hnow : now_ms ≤ (FOREVER_TIMEOUT : ℤ)) :
    (MySQLCache.set encode default_timeout store key v none now_s now2).2 =
      Except.ok () ∧
    MySQLCache.get decode
      (MySQLCache.set encode default_timeout store key v none now_s now2).1
      key now_ms default = Except.ok v := by
  have hset := set_eq_sqlSet encode default_timeout store key v none now_s
    now2 hkey
  have hexp : get_backend_timeout default_timeout none now_s =
      (FOREVER_TIMEOUT : ℤ) := rfl
  refine ⟨by rw [hset], ?_⟩
  rw [hset]
  unfold MySQLCache.get
  rw [validate_key_ok key hkey]
  have hget : sqlGet decode
      (sqlSet store key (encode v) (get_backend_timeout default_timeout none
        now_s)) key now_ms default = v := by
    unfold sqlGet
    rw [lookup_sqlSet_self, hexp]
    show (if (FOREVER_TIMEOUT : ℤ) < now_ms then default else
      decode (encode v)) = v
    rw [if_neg (not_lt.mpr hnow)]
    exact hcodec
  rw [hget]

/-- C4 witness: on the empty store, `set(k, 7, None)` then `get(k)` at
`now = 1000` ms yields 7 under the concrete singleton-blob codec. -/
theorem set_forever_then_get_witness :
    (MySQLCache.set encodeN 0 [] kW 7 none 0 0).2 = Except.ok () ∧
    MySQLCache.get decodeN (MySQLCache.set encodeN 0 [] kW 7 none 0 0).1 kW
      1000 0 = Except.ok 7 :=
  set_forever_then_get encodeN decodeN 0 [] kW 7 0 0 1000 0 (by decide)
    (by decide) (by decide)

/-- C7: `get_backend_timeout` maps a relative timeout of `None` to the
FOREVER sentinel, and a positive relative timeout of `s` whole seconds to the
absolute expiry `now_ms + s * 1000` milliseconds, where `now_ms` is the
truncated millisecond reading of the same clock instant. -/
theorem get_backend_timeout_spec (default_timeout : ℚ) (now_s : ℚ) (s : ℤ)
    (h0 : 0 ≤ now_s) (hs : 0 < s) :
    get_backend_timeout default_timeout none now_s = (FOREVER_TIMEOUT : ℤ) ∧
    get_backend_timeout default_timeout (some (TimeoutV.secs (s : ℚ))) now_s =
      pyInt (now_s * 1000) + s * 1000 := by
  refine ⟨rfl, ?_⟩
  have hsq : (0 : ℚ) < (s : ℚ) := by exact_mod_cast hs
  have h1 : (0 : ℚ) ≤ now_s * 1000 := by positivity
  have h2 : (0 : ℚ) ≤ (now_s + (s : ℚ)) * 1000 := by positivity
  show pyInt ((now_s + if ((s : ℚ)) = 0 then -1 else (s : ℚ)) * 1000) =
    pyInt (now_s * 1000) + s * 1000
  rw [if_neg hsq.ne.symm]
  rw [pyInt_of_nonneg _ h2, pyInt_of_nonneg _ h1]
  have hsplit : (now_s + (s : ℚ)) * 1000 =
      now_s * 1000 + ((s * 1000 : ℤ) : ℚ) := by
    push_cast
    ring
  rw [hsplit, Int.floor_add_int]

/-- C7 witness: with the clock at 1.5 s, a 7-second timeout resolves to
`int(1.5s in ms) + 7000`, and `None` resolves to the FOREVER sentinel. -/
theorem get_backend_timeout_spec_witness :
    (0 : ℚ) ≤ 3 / 2 ∧ (0 : ℤ) < 7 ∧
    (get_backend_timeout 5 none (3 / 2) = (FOREVER_TIMEOUT : ℤ) ∧
      get_backend_timeout 5 (some (TimeoutV.secs ((7 : ℤ) : ℚ))) (3 / 2) =
        pyInt ((3 / 2) * 1000) + 7 * 1000) :=
  ⟨by norm_num, by norm_num,
    get_backend_timeout_spec 5 (3 / 2) 7 (by norm_num) (by norm_num)⟩

/-- C8: for a valid key, `set` performs an unconditional point upsert — the
key now maps to the encoded value with the resolved expiry, every other key
is untouched — and always reports success: the public method returns without
error and `_base_set('set', ...)` returns True. -/
theorem set_upsert_always_succeeds {Value : Type} (encode : Value → Blob)
    (default_timeout : ℚ) (store : Store) (key : String) (v : Value)
    (t : Option TimeoutV) (now_s now2 : ℚ) (hkey : key.length ≤ 250) :
    (MySQLCache.set encode default_timeout store key v t now_s now2).2 =
      Except.ok () ∧
    (MySQLCache.set encode default_timeout store key v t now_s
        now2).1.lookup key =
      some (encode v, get_backend_timeout default_timeout t now_s) ∧
    (∀ k2, k2 ≠ key →
      (MySQLCache.set encode default_timeout store key v t now_s
          now2).1.lookup k2 = store.lookup k2) ∧
    (base_set encode Mode.set store key v
        (get_backend_timeout default_timeout t now_s) now2).2 = true := by
  have hset := set_eq_sqlSet encode default_timeout store key v t now_s
    now2 hkey
  refine ⟨by rw [hset], ?_, ?_, rfl⟩
  · rw [hset]
    exact lookup_sqlSet_self store key (encode v) _
  · intro k2 hk2
    rw [hset]
    exact lookup_sqlSet_ne store key k2 (encode v) _ hk2

/-- C8 witness: setting a fresh key on a one-row store succeeds, writes the
row and leaves the other row alone. -/
theorem set_upsert_always_succeeds_witness :
    (MySQLCache.set encodeN 0 [(kW2, [9], 50)] kW 7 none 0 0).2 =
      Except.ok () ∧
    (MySQLCache.set encodeN 0 [(kW2, [9], 50)] kW 7 none 0 0).1.lookup kW =
      some (encodeN 7, get_backend_timeout 0 none 0) ∧
    (∀ k2, k2 ≠ kW →
      (MySQLCache.set encodeN 0 [(kW2, [9], 50)] kW 7 none 0 0).1.lookup k2 =
        ([(kW2, [9], 50)] : Store).lookup k2) ∧
    (base_set encodeN Mode.set [(kW2, [9], 50)] kW 7
        (get_backend_timeout 0 none 0) 0).2 = true :=
  set_upsert_always_succeeds encodeN 0 [(kW2, [9], 50)] kW 7 none 0 0
    (by decide)

/-- C9: at the exact expiry boundary, `add` and `get` disagree about
liveness: for a stored row with `expires_at = now`, the conditional-insert
condition `expires > now` is false, so `add` replaces the row (the store
becomes the upsert of the new row) and returns true, while `get` at the same
instant (miss condition `expires < now`) still returns the old stored
value. -/
theorem add_get_boundary_disagreement {Value : Type} (decode : Blob → Value)
    (store : Store) (key : String) (b : Blob) (e : ℤ) (blob2 : Blob)
    (exp : ℤ) (default : Value) (h : store.lookup key = some (b, e)) :
    (sqlAdd store key blob2 exp (e : ℚ)).2 = true ∧
    (sqlAdd store key blob2 exp (e : ℚ)).1 = sqlSet store key blob2 exp ∧
    (sqlAdd store key blob2 exp (e : ℚ)).1.lookup key = some (blob2, exp) ∧
    sqlGet decode store key e default = decode b := by
  have hadd : sqlAdd store key blob2 exp (e : ℚ) =
      (sqlSet store key blob2 exp, true) := by
    unfold sqlAdd
    rw [h]
    show (if (e : ℚ) < (e : ℚ) then (store, false)
      else (sqlSet store key blob2 exp, true)) =
      (sqlSet store key blob2 exp, true)
    rw [if_neg (lt_irrefl _)]
  refine ⟨by rw [hadd], by rw [hadd], ?_, ?_⟩
  · rw [hadd]
    exact lookup_sqlSet_self store key blob2 exp
  · unfold sqlGet
    rw [h]
    show (if e < e then default else decode b) = decode b
    rw [if_neg (lt_irrefl _)]

/-- C9 witness: a row expiring at 100, probed exactly at 100: `add` replaces
it and returns true, `get` still returns the old value 5. -/
theorem add_get_boundary_disagreement_witness :
    (sqlAdd [(kW, [5], 100)] kW [7] 999 ((100 : ℤ) : ℚ)).2 = true ∧
    (sqlAdd [(kW, [5], 100)] kW [7] 999 ((100 : ℤ) : ℚ)).1 =
      sqlSet [(kW, [5], 100)] kW [7] 999 ∧
    (sqlAdd [(kW, [5], 100)] kW [7] 999 ((100 : ℤ) : ℚ)).1.lookup kW =
      some ([7], 999) ∧
    sqlGet decodeN [(kW, [5], 100)] kW 100 0 = decodeN [5] :=
  add_get_boundary_disagreement decodeN [(kW, [5], 100)] kW [5] 100 [7] 999 0
    (by decide)

/-- C5: every public operation taking keys accepts a key of exactly 250
characters (validation passes and the operation proceeds to the store), and
rejects a key of 251 or more characters with the key-validation error raised
synchronously before any store access: reads return the error, writes return
the error with the store untouched (no row written), and `set_many` issues no
statement. -/
theorem key_length_boundary {Value : Type} (encode : Value → Blob)
    (decode : Blob → Value) (default_timeout : ℚ) (store : Store)
    (key : String) (v : Value) (t : Option TimeoutV) (now_s now2 : ℚ)
    (now_ms : ℤ) (default : Value) :
    (key.length = 250 →
      validate_key key = Except.ok () ∧
      MySQLCache.get decode store key now_ms default =
        Except.ok (sqlGet decode store key now_ms default) ∧
      has_key store key now_ms = Except.ok (sqlHasKey store key now_ms) ∧
      (MySQLCache.set encode default_timeout store key v t now_s now2).2 =
        Except.ok () ∧
      (MySQLCache.add encode default_timeout store key v t now_s now2).2 =
        Except.ok (base_set encode Mode.add store key v
          (get_backend_timeout default_timeout t now_s) now2).2 ∧
      delete store key = (sqlDelete store key, Except.ok ()) ∧
      get_many decode store [key] now_ms =
        Except.ok (sqlGetMany decode store [key] now_ms) ∧
      delete_many store [key] = (sqlDeleteMany store [key], Except.ok ()) ∧
      set_many encode default_timeout [(key, v)] t now_s =
        Except.ok ⟨set_many_query 1,
          [Param.key key, Param.blob (encode v),
            Param.expiry (get_backend_timeout default_timeout t now_s)]⟩) ∧
    (250 < key.length →
      validate_key key = Except.error (invalidKeyMessage key) ∧
      MySQLCache.get decode store key now_ms default =
        Except.error (invalidKeyMessage key) ∧
      has_key store key now_ms = Except.error (invalidKeyMessage key) ∧
      MySQLCache.set encode default_timeout store key v t now_s now2 =
        (store, Except.error (invalidKeyMessage key)) ∧
      MySQLCache.add encode default_timeout store key v t now_s now2 =
        (store, Except.error (invalidKeyMessage key)) ∧
      delete store key = (store, Except.error (invalidKeyMessage key)) ∧
      get_many decode store [key] now_ms =
        Except.error (invalidKeyMessage key) ∧
      delete_many store [key] =
        (store, Except.error (invalidKeyMessage key)) ∧
      set_many encode default_timeout [(key, v)] t now_s =
        Except.error (invalidKeyMessage key)) := by
  constructor
  · intro h250
    have hval : validate_key key = Except.ok () :=
      validate_key_ok key (le_of_eq h250)
    have hforM : List.forM [key] validate_key = Except.ok PUnit.unit := by
      show (validate_key key >>= fun _ =>
        List.forM ([] : List String) validate_key) = Except.ok PUnit.unit
      rw [hval]
      rfl
    have hforM2 : List.forM [(key, v)] (fun kv => validate_key kv.1) =
        Except.ok PUnit.unit := by
      show (validate_key key >>= fun _ =>
        List.forM ([] : List (String × Value)) (fun kv => validate_key kv.1)) =
        Except.ok PUnit.unit
      rw [hval]
      rfl
    refine ⟨hval, ?_, ?_, ?_, ?_, ?_, ?_, ?_, ?_⟩
    · unfold MySQLCache.get
      rw [hval]
    · unfold has_key
      rw [hval]
    · unfold MySQLCache.set
      rw [hval]
    · unfold MySQLCache.add
      rw [hval]
    · unfold delete
      rw [hval]
    · unfold get_many
      rw [hforM]
    · unfold delete_many
      rw [hforM]
    · unfold set_many
      rw [hforM2]
      rfl
  · intro h251
    have hbad : validate_key key = Except.error (invalidKeyMessage key) := by
      unfold validate_key
      rw [if_pos h251]
    have hforM : List.forM [key] validate_key =
        Except.error (invalidKeyMessage key) := by
      show (validate_key key >>= fun _ =>
        List.forM ([] : List String) validate_key) =
        Except.error (invalidKeyMessage key)
      rw [hbad]
      rfl
    have hforM2 : List.forM [(key, v)] (fun kv => validate_key kv.1) =
        Except.error (invalidKeyMessage key) := by
      show (validate_key key >>= fun _ =>
        List.forM ([] : List (String × Value)) (fun kv => validate_key kv.1)) =
        Except.error (invalidKeyMessage key)
      rw [hbad]
      rfl
    refine ⟨hbad, ?_, ?_, ?_, ?_, ?_, ?_, ?_, ?_⟩
    · unfold MySQLCache.get
      rw [hbad]
    · unfold has_key
      rw [hbad]
    · unfold MySQLCache.set
      rw [hbad]
    · unfold MySQLCache.add
      rw [hbad]
    · unfold delete
      rw [hbad]
    · unfold get_many
      rw [hforM]
    · unfold delete_many
      rw [hforM]
    · unfold set_many
      rw [hforM2]

/-- A 250-character key (the boundary length the validator accepts). -/
def key250 : String := String.mk (List.replicate 250 (Char.ofNat 97))

/-- A 251-character key (one past the boundary; the validator rejects it). -/
def key251 : String := String.mk (List.replicate 251 (Char.ofNat 97))

/-- The boundary key has length 250. -/
theorem key250_length : key250.length = 250 := by
  show (List.replicate 250 (Char.ofNat 97)).length = 250
  exact List.length_replicate ..

/-- The over-long key has length 251. -/
theorem key251_length : key251.length = 251 := by
  show (List.replicate 251 (Char.ofNat 97)).length = 251
  exact List.length_replicate ..

/-- C5 witness: the 250-character key is accepted (validation and a read both
succeed), the 251-character key is rejected by every operation and `set` on
it leaves the store unchanged. -/
theorem key_length_boundary_witness :
    validate_key key250 = Except.ok () ∧
    MySQLCache.get decodeN [] key250 0 0 =
      Except.ok (sqlGet decodeN [] key250 0 0) ∧
    validate_key key251 = Except.error (invalidKeyMessage key251) ∧
    MySQLCache.set encodeN 0 [] key251 7 none 0 0 =
      ([], Except.error (invalidKeyMessage key251)) := by
  have hA := (key_length_boundary encodeN decodeN 0 ([] : Store) key250 7
    none 0 0 0 0).1 key250_length
  have hB := (key_length_boundary encodeN decodeN 0 ([] : Store) key251 7
    none 0 0 0 0).2 (by rw [key251_length]; norm_num)
  exact ⟨hA.1, hA.2.1, hB.1, hB.2.2.2.1⟩

/-- C10: `set_many` on an empty data mapping is not a no-op: the VALUES
clause (the join of zero value tuples) is the empty string, and the
tuple-less — hence syntactically invalid — INSERT statement is still issued
to the store with an empty parameter list, rather than execution being
skipped. -/
theorem set_many_empty_issues_statement {Value : Type} (encode : Value → Blob)
    (default_timeout : ℚ) (t : Option TimeoutV) (now_s : ℚ) :
    values_clause 0 = "" ∧
    set_many_query 0 = set_many_query_head ++ "" ++ set_many_query_tail ∧
    set_many_query 0 =
      "INSERT INTO \x7btable_name\x7d (cache_key, value, expires) VALUES  ON DUPLICATE KEY UPDATE value=VALUES(value), expires=VALUES(expires)" ∧
    set_many encode default_timeout ([] : List (String × Value)) t now_s =
      Except.ok ⟨set_many_query 0, []⟩ :=
  ⟨by decide, by decide, by decide, rfl⟩

end MySQLCache
